import Mathlib

/-!
Verification development for the ngrev video-tracking core.

The TypeScript source is shallowly embedded in Lean:
JavaScript numbers are modelled as exact rationals; the one transcendental
operation reachable from the claims, Math.sqrt inside calculateDistance, is
a parameter sqrtFn of the tracker functions, and Math.pow inside the
saliency fusion is a parameter powFn, so every theorem quantifies over the
model of those primitives.  Mutable arrays become lists with explicit index
updates, the class field of detections is held as a string, and the global
nextTrackId counter of tracker.ts is carried as a field of the tracker
state record.
-/

namespace Ngrev

/-- Math.max on two comparable values, written with an if so that closed
terms reduce inside the kernel. -/
def jmax {α : Type} [LinearOrder α] (a b : α) : α := if b ≤ a then a else b

/-- Math.min on two comparable values, written with an if so that closed
terms reduce inside the kernel. -/
def jmin {α : Type} [LinearOrder α] (a b : α) : α := if a ≤ b then a else b

theorem jmax_eq {α : Type} [LinearOrder α] (a b : α) : jmax a b = max a b := by
  unfold jmax
  rcases le_total a b with h | h
  · rw [max_eq_right h]
    split_ifs with h2
    · exact le_antisymm h h2
    · rfl
  · rw [max_eq_left h, if_pos h]

theorem jmin_eq {α : Type} [LinearOrder α] (a b : α) : jmin a b = min a b := by
  unfold jmin
  rcases le_total a b with h | h
  · rw [min_eq_left h, if_pos h]
  · rw [min_eq_right h]
    split_ifs with h2
    · exact le_antisymm h2 h
    · rfl

/-- Bounding box, from src/lib/tracking/types.ts. -/
structure BoundingBox where
  x : ℚ
  y : ℚ
  width : ℚ
  height : ℚ
deriving DecidableEq

/-- Raw detection, from src/lib/tracking/types.ts. -/
structure Detection where
  bbox : BoundingBox
  cls : String
  score : ℚ
deriving DecidableEq

/-- Tracked object with persistent ID, from src/lib/tracking/types.ts. -/
structure Track where
  id : ℕ
  bbox : BoundingBox
  cls : String
  score : ℚ
  age : ℕ
  timeSinceUpdate : ℕ
  velocity : ℚ × ℚ
  history : List BoundingBox
deriving DecidableEq

/-- Tracker configuration, from src/lib/tracking/types.ts. -/
structure TrackerConfig where
  iouThreshold : ℚ
  maxAge : ℕ
  minHits : ℕ
  maxLineDistance : ℚ
deriving DecidableEq

/-- DEFAULT_TRACKER_CONFIG from src/lib/tracking/types.ts. -/
def DEFAULT_TRACKER_CONFIG : TrackerConfig :=
  { iouThreshold := 1/10, maxAge := 30, minHits := 1, maxLineDistance := 400 }

/-- calculateIoU from src/lib/tracking/tracker.ts (lines 16-28). -/
def calculateIoU (box1 box2 : BoundingBox) : ℚ :=
  let x1 := jmax box1.x box2.x
  let y1 := jmax box1.y box2.y
  let x2 := jmin (box1.x + box1.width) (box2.x + box2.width)
  let y2 := jmin (box1.y + box1.height) (box2.y + box2.height)
  let intersection := jmax 0 (x2 - x1) * jmax 0 (y2 - y1)
  let area1 := box1.width * box1.height
  let area2 := box2.width * box2.height
  let union := area1 + area2 - intersection
  if 0 < union then intersection / union else 0

/-- getCenter from tracker.ts (lines 33-38). -/
def getCenter (bbox : BoundingBox) : ℚ × ℚ :=
  (bbox.x + bbox.width / 2, bbox.y + bbox.height / 2)

/-- calculateDistance from tracker.ts (lines 43-47); Math.sqrt is the
parameter sqrtFn. -/
def calculateDistance (sqrtFn : ℚ → ℚ) (p1 p2 : ℚ × ℚ) : ℚ :=
  let dx := p1.1 - p2.1
  let dy := p1.2 - p2.2
  sqrtFn (dx * dx + dy * dy)

/-- predictNextPosition from tracker.ts (lines 52-59). -/
def predictNextPosition (track : Track) : BoundingBox :=
  { x := track.bbox.x + track.velocity.1
    y := track.bbox.y + track.velocity.2
    width := track.bbox.width
    height := track.bbox.height }

/-- One row of the score matrix built by matchDetectionsToTracks. -/
structure ScoreEntry where
  di : ℕ
  ti : ℕ
  score : ℚ
  iou : ℚ
  distance : ℚ
deriving DecidableEq

/-- Placeholder used to read list elements at indices the source code
guarantees to be in range. -/
def defaultDetection : Detection :=
  { bbox := { x := 0, y := 0, width := 0, height := 0 }, cls := "", score := 0 }

/-- Placeholder track for out-of-range reads (never reached on the source's
index discipline). -/
def defaultTrack : Track :=
  { id := 0, bbox := { x := 0, y := 0, width := 0, height := 0 }, cls := ""
    score := 0, age := 0, timeSinceUpdate := 0, velocity := (0, 0), history := [] }

/-- The score-matrix row computed for one detection-track pair by
matchDetectionsToTracks (tracker.ts lines 80-96): the IoU is taken against
the track's predicted box, the distance between the centers, and the
combined score uses the distance fallback when the IoU is at most 0.05. -/
def scoreEntryOf (sqrtFn : ℚ → ℚ) (det : Detection) (track : Track) (di ti : ℕ) :
    ScoreEntry :=
  let predictedBox := predictNextPosition track
  let detCenter := getCenter det.bbox
  let predictedCenter := getCenter predictedBox
  let iou := calculateIoU det.bbox predictedBox
  let distance := calculateDistance sqrtFn detCenter predictedCenter
  let maxDist := jmax track.bbox.width (jmax track.bbox.height 150)
  let distanceScore := jmax 0 (1 - distance / maxDist)
  let score := if 1/20 < iou then iou + distanceScore * (1/2)
               else distanceScore * (4/5)
  { di := di, ti := ti, score := score, iou := iou, distance := distance }

/-- maxDist of tracker.ts line 92. -/
def maxDistOf (track : Track) : ℚ :=
  jmax track.bbox.width (jmax track.bbox.height 150)

/-- The admission test of tracker.ts line 98: a scored pair enters the
score matrix when score >= iouThreshold or distance < maxDist. -/
def isCandidate (iouThreshold : ℚ) (e : ScoreEntry) (track : Track) : Prop :=
  iouThreshold ≤ e.score ∨ e.distance < maxDistOf track

instance (iouThreshold : ℚ) (e : ScoreEntry) (track : Track) :
    Decidable (isCandidate iouThreshold e track) := by
  unfold isCandidate
  infer_instance

/-- The scoreMatrix loop of matchDetectionsToTracks (tracker.ts lines
78-102): every (di, ti) pair is scored, and kept only when
score >= iouThreshold or distance < maxDist. -/
def candidatePairs (sqrtFn : ℚ → ℚ) (detections : List Detection)
    (tracks : List Track) (iouThreshold : ℚ) : List ScoreEntry :=
  (List.range detections.length).flatMap (fun di =>
    (List.range tracks.length).filterMap (fun ti =>
      let e := scoreEntryOf sqrtFn (detections.getD di defaultDetection)
        (tracks.getD ti defaultTrack) di ti
      if isCandidate iouThreshold e (tracks.getD ti defaultTrack) then some e
      else none))

/-- Stable insertion used to sort the score matrix by descending score.
Array.prototype.sort with comparator (a, b) => b.score - a.score is a
stable sort on the descending-score preorder, and a stable sort's output is
uniquely determined by that preorder, so this structural implementation is
extensionally the source's sort. -/
def insertByScore (e : ScoreEntry) : List ScoreEntry → List ScoreEntry
  | [] => [e]
  | a :: as => if a.score ≤ e.score then e :: a :: as else a :: insertByScore e as

/-- Stable descending sort of the score matrix (tracker.ts line 105). -/
def sortByScoreDesc : List ScoreEntry → List ScoreEntry
  | [] => []
  | e :: es => insertByScore e (sortByScoreDesc es)

/-- Accumulator of the greedy matching loop (tracker.ts lines 107-113). -/
structure GreedyState where
  matched : List (ℕ × ℕ)
  usedD : List ℕ
  usedT : List ℕ
deriving DecidableEq

/-- One step of the greedy matching loop. -/
def greedyStep (s : GreedyState) (e : ScoreEntry) : GreedyState :=
  if e.di ∉ s.usedD ∧ e.ti ∉ s.usedT then
    { matched := s.matched ++ [(e.di, e.ti)]
      usedD := s.usedD ++ [e.di]
      usedT := s.usedT ++ [e.ti] }
  else s

/-- Result record of matchDetectionsToTracks. -/
structure MatchResult where
  matched : List (ℕ × ℕ)
  unmatchedDetections : List ℕ
  unmatchedTracks : List ℕ
deriving DecidableEq

/-- matchDetectionsToTracks from tracker.ts (lines 64-123). -/
def matchDetectionsToTracks (sqrtFn : ℚ → ℚ) (detections : List Detection)
    (tracks : List Track) (iouThreshold : ℚ) : MatchResult :=
  let sorted := sortByScoreDesc (candidatePairs sqrtFn detections tracks iouThreshold)
  let g := sorted.foldl greedyStep { matched := [], usedD := [], usedT := [] }
  { matched := g.matched
    unmatchedDetections :=
      (List.range detections.length).filter (fun i => decide (i ∉ g.usedD))
    unmatchedTracks :=
      (List.range tracks.length).filter (fun i => decide (i ∉ g.usedT)) }

/-- In-place update of the element at index i, modelling a write to
this.tracks at an index. -/
def modifyIdx {α : Type} : List α → ℕ → (α → α) → List α
  | [], _, _ => []
  | a :: as, 0, f => f a :: as
  | a :: as, n + 1, f => a :: modifyIdx as n f

/-- History push with the 100-entry cap (tracker.ts lines 174-177 and
195-198): push, then shift when over 100. -/
def pushHistory (history : List BoundingBox) (bbox : BoundingBox) : List BoundingBox :=
  let h2 := history ++ [bbox]
  if 100 < h2.length then h2.tail else h2

/-- Matched-track update (tracker.ts lines 149-178): smoothed velocity,
state overwrite, age and history bookkeeping. -/
def matchedUpdate (detection : Detection) (track : Track) : Track :=
  let oldCenter := getCenter track.bbox
  let newCenter := getCenter detection.bbox
  let newVelocityX := newCenter.1 - oldCenter.1
  let newVelocityY := newCenter.2 - oldCenter.2
  let alpha : ℚ := 7/10
  { track with
    velocity := (track.velocity.1 * (1 - alpha) + newVelocityX * alpha,
                 track.velocity.2 * (1 - alpha) + newVelocityY * alpha)
    bbox := detection.bbox
    score := detection.score
    cls := detection.cls
    age := track.age + 1
    timeSinceUpdate := 0
    history := pushHistory track.history detection.bbox }

/-- Unmatched-track aging and coasting (tracker.ts lines 181-200). -/
def agedUpdate (track : Track) : Track :=
  let t1 := { track with timeSinceUpdate := track.timeSinceUpdate + 1, age := track.age + 1 }
  if t1.timeSinceUpdate ≤ 5 then
    let predicted := predictNextPosition t1
    { t1 with
      bbox := predicted
      velocity := (t1.velocity.1 * (9/10), t1.velocity.2 * (9/10))
      history := pushHistory t1.history predicted }
  else t1

/-- Step 2 of Tracker.update: apply matched updates in match order. -/
def applyMatched (detections : List Detection) (pairs : List (ℕ × ℕ))
    (tracks : List Track) : List Track :=
  pairs.foldl (fun ts p => modifyIdx ts p.2 (matchedUpdate (detections.getD p.1 defaultDetection))) tracks

/-- Step 3 of Tracker.update: age the unmatched tracks. -/
def applyAging (idxs : List ℕ) (tracks : List Track) : List Track :=
  idxs.foldl (fun ts ti => modifyIdx ts ti agedUpdate) tracks

/-- New track built from an unmatched detection (tracker.ts lines 205-214). -/
def newTrackOf (detection : Detection) (id : ℕ) : Track :=
  { id := id
    bbox := detection.bbox
    cls := detection.cls
    score := detection.score
    age := 1
    timeSinceUpdate := 0
    velocity := (0, 0)
    history := [detection.bbox] }

/-- The tracks created by step 4 of Tracker.update for the unmatched
detection indices, ids issued consecutively from nid. -/
def newTracksList (detections : List Detection) : List ℕ → ℕ → List Track
  | [], _ => []
  | di :: rest, nid =>
      newTrackOf (detections.getD di defaultDetection) nid :: newTracksList detections rest (nid + 1)

/-- Tracker state: the tracks array, the (module-level, here state-carried)
nextTrackId counter, and the configuration. -/
structure Tracker where
  tracks : List Track
  nextTrackId : ℕ
  config : TrackerConfig
deriving DecidableEq

/-- The tracker's track list after steps 2 and 3 of update (matched
updates applied, unmatched tracks aged), before new tracks are appended. -/
def processedOld (sqrtFn : ℚ → ℚ) (tr : Tracker) (detections : List Detection) : List Track :=
  let m := matchDetectionsToTracks sqrtFn detections tr.tracks tr.config.iouThreshold
  applyAging m.unmatchedTracks (applyMatched detections m.matched tr.tracks)

/-- Tracker.update from tracker.ts (lines 139-228), as a pure state
transformer returning the new state and the returned track array. -/
def Tracker.update (sqrtFn : ℚ → ℚ) (tr : Tracker) (detections : List Detection) :
    Tracker × List Track :=
  let m := matchDetectionsToTracks sqrtFn detections tr.tracks tr.config.iouThreshold
  let t2 := processedOld sqrtFn tr detections
  let t3 := t2 ++ newTracksList detections m.unmatchedDetections tr.nextTrackId
  let nid := tr.nextTrackId + m.unmatchedDetections.length
  let t4 := t3.filter (fun t => decide (t.timeSinceUpdate < tr.config.maxAge))
  ({ tracks := t4, nextTrackId := nid, config := tr.config },
   t4.filter (fun t => decide (tr.config.minHits ≤ t.age ∨ t.timeSinceUpdate = 0)))

/-- Tracker.reset from tracker.ts (lines 240-243): clears the tracks and
restarts the id counter at 1. -/
def Tracker.reset (tr : Tracker) : Tracker :=
  { tr with tracks := [], nextTrackId := 1 }

/-- Offsets (dy, dx) of a (2r+1) x (2r+1) neighborhood in the nested-loop
order of the source (dy outer, dx inner, each from -r to r). -/
def neighborhoodOffsets (r : ℕ) : List (ℤ × ℤ) :=
  (List.range (2 * r + 1)).flatMap (fun dy =>
    (List.range (2 * r + 1)).map (fun dx => ((dy : ℤ) - r, (dx : ℤ) - r)))

/-- Count of active pixels in the (2r+1) x (2r+1) neighborhood of (x, y);
masks are total functions that are false off the written region, matching
the zero-initialized Uint8Array. -/
def neighborhoodCount (mask : ℤ → ℤ → Bool) (x y : ℤ) (r : ℕ) : ℕ :=
  (neighborhoodOffsets r).foldl
    (fun c d => c + (if mask (x + d.2) (y + d.1) then 1 else 0)) 0

namespace MotionDetector

/-- MotionDetector.morphologicalClean from
src/lib/tracking/motion-detection.ts (lines 154-179): a single pass over
the interior keeping a pixel when at least 5 of its 3x3 neighborhood is
active; the result array is zero everywhere the loop does not write
(borders), and no dilation pass follows. -/
def morphologicalClean (mask : ℤ → ℤ → Bool) (width height : ℕ) : ℤ → ℤ → Bool :=
  fun x y =>
    decide (1 ≤ x ∧ x < (width : ℤ) - 1 ∧ 1 ≤ y ∧ y < (height : ℤ) - 1) &&
    decide (5 ≤ neighborhoodCount mask x y 1)

end MotionDetector

/-- Modelled from the spec: the morphological clean the specification
describes for MotionDetector, an erosion keeping a pixel active only when
strictly more than a majority of its 3x3 neighborhood (at least 6 of 9) is
active, followed by a dilation in which any active neighbor (the 3x3
neighborhood) activates a pixel.  Used only to compare the specified
behavior with the source's morphologicalClean. -/
def specOpeningClean (mask : ℤ → ℤ → Bool) (width height : ℕ) : ℤ → ℤ → Bool :=
  let eroded : ℤ → ℤ → Bool := fun x y =>
    decide (1 ≤ x ∧ x < (width : ℤ) - 1 ∧ 1 ≤ y ∧ y < (height : ℤ) - 1) &&
    decide (6 ≤ neighborhoodCount mask x y 1)
  fun x y => (neighborhoodOffsets 1).any (fun d => eroded (x + d.2) (y + d.1))

/-- JavaScript number for the saliency-fusion path: a finite rational, NaN,
or a signed infinity.  Needed because fuseSaliencyMaps divides by the
weight sum without a guard, so 0/0 (NaN) is reachable. -/
inductive JSNum where
  | fin (q : ℚ)
  | nan
  | inf
  | ninf
deriving DecidableEq

namespace JSNum

/-- JS addition on the embedded numbers (IEEE-754 semantics). -/
def jsAdd : JSNum → JSNum → JSNum
  | fin a, fin b => fin (a + b)
  | nan, _ => nan
  | _, nan => nan
  | inf, ninf => nan
  | ninf, inf => nan
  | inf, _ => inf
  | _, inf => inf
  | ninf, _ => ninf
  | _, ninf => ninf

/-- JS multiplication on the embedded numbers (IEEE-754 semantics). -/
def jsMul : JSNum → JSNum → JSNum
  | fin a, fin b => fin (a * b)
  | nan, _ => nan
  | _, nan => nan
  | inf, inf => inf
  | inf, ninf => ninf
  | ninf, inf => ninf
  | ninf, ninf => inf
  | inf, fin b => if b = 0 then nan else if 0 < b then inf else ninf
  | fin a, inf => if a = 0 then nan else if 0 < a then inf else ninf
  | ninf, fin b => if b = 0 then nan else if 0 < b then ninf else inf
  | fin a, ninf => if a = 0 then nan else if 0 < a then ninf else inf

/-- JS division on the embedded numbers; 0/0 is NaN and x/0 for nonzero x
is a signed infinity. -/
def jsDiv : JSNum → JSNum → JSNum
  | fin a, fin b =>
      if b = 0 then
        if a = 0 then nan else if 0 < a then inf else ninf
      else fin (a / b)
  | nan, _ => nan
  | _, nan => nan
  | inf, inf => nan
  | inf, ninf => nan
  | ninf, inf => nan
  | ninf, ninf => nan
  | inf, fin b => if 0 ≤ b then inf else ninf
  | ninf, fin b => if 0 ≤ b then ninf else inf
  | fin _, inf => fin 0
  | fin _, ninf => fin 0

/-- JS Math.pow with a fixed positive non-integer exponent e (here 0.8);
powFn models the real power on nonnegative finite bases.  A negative
finite base with a non-integer exponent yields NaN, as does a NaN base. -/
def jsPow (powFn : ℚ → ℚ → ℚ) : JSNum → ℚ → JSNum
  | fin a, e => if a < 0 then nan else fin (powFn a e)
  | nan, _ => nan
  | inf, _ => inf
  | ninf, _ => nan

/-- JS strict greater-than; any comparison with NaN is false. -/
def jsGtB : JSNum → JSNum → Bool
  | fin a, fin b => decide (b < a)
  | nan, _ => false
  | _, nan => false
  | inf, inf => false
  | inf, _ => true
  | ninf, _ => false
  | fin _, inf => false
  | fin _, ninf => true

end JSNum

namespace SaliencyDetector

open JSNum

/-- The per-pixel body of SaliencyDetector.fuseSaliencyMaps
(src/lib/tracking/saliency-detector.ts lines 402-433): normalize the four
weights by their (unguarded) sum, combine the four map values, and apply
the 0.8-power boost. -/
def fusePixel (powFn : ℚ → ℚ → ℚ)
    (motionWeight luminanceWeight gradientWeight flickerWeight : ℚ)
    (m l g f : ℚ) : JSNum :=
  let totalWeight := motionWeight + luminanceWeight + gradientWeight + flickerWeight
  let wMotion := jsDiv (fin motionWeight) (fin totalWeight)
  let wLum := jsDiv (fin luminanceWeight) (fin totalWeight)
  let wGrad := jsDiv (fin gradientWeight) (fin totalWeight)
  let wFlick := jsDiv (fin flickerWeight) (fin totalWeight)
  let combined :=
    jsAdd (jsAdd (jsAdd (jsMul (fin m) wMotion) (jsMul (fin l) wLum))
      (jsMul (fin g) wGrad)) (jsMul (fin f) wFlick)
  jsPow powFn combined (4/5)

/-- SaliencyDetector.fuseSaliencyMaps as a map over pixel coordinates; the
four input maps hold the finite values produced by the compute* passes. -/
def fuseSaliencyMaps (powFn : ℚ → ℚ → ℚ)
    (motionWeight luminanceWeight gradientWeight flickerWeight : ℚ)
    (motion luminance gradient flicker : ℤ → ℤ → ℚ) : ℤ → ℤ → JSNum :=
  fun x y => fusePixel powFn motionWeight luminanceWeight gradientWeight flickerWeight
    (motion x y) (luminance x y) (gradient x y) (flicker x y)

/-- Binarization step of SaliencyDetector.morphologicalClean (lines
444-449): active when the fused value exceeds the 0.15 threshold; a NaN
comparison is false, so NaN pixels binarize to inactive. -/
def binarize (map : ℤ → ℤ → JSNum) : ℤ → ℤ → Bool :=
  fun x y => jsGtB (map x y) (fin (3/20))

/-- SaliencyDetector.erode (lines 461-487): an interior pixel stays active
when at least minNeighbors of its (2*radius+1)^2 neighborhood is active. -/
def erode (mask : ℤ → ℤ → Bool) (width height : ℕ) (radius minNeighbors : ℕ) :
    ℤ → ℤ → Bool :=
  fun x y =>
    decide ((radius : ℤ) ≤ x ∧ x < (width : ℤ) - radius ∧
            (radius : ℤ) ≤ y ∧ y < (height : ℤ) - radius) &&
    decide (minNeighbors ≤ neighborhoodCount mask x y radius)

/-- SaliencyDetector.dilate (lines 489-512): a pixel becomes active when
some active interior pixel lies within radius of it. -/
def dilate (mask : ℤ → ℤ → Bool) (width height : ℕ) (radius : ℕ) :
    ℤ → ℤ → Bool :=
  fun x y => (neighborhoodOffsets radius).any (fun d =>
    let sx := x + d.2
    let sy := y + d.1
    decide ((radius : ℤ) ≤ sx ∧ sx < (width : ℤ) - radius ∧
            (radius : ℤ) ≤ sy ∧ sy < (height : ℤ) - radius) &&
    mask sx sy)

/-- SaliencyDetector.morphologicalClean (lines 438-459): binarize at 0.15,
erode with radius 2 and minNeighbors 5, then dilate with radius 3 and
radius 2. -/
def morphologicalClean (map : ℤ → ℤ → JSNum) (width height : ℕ) : ℤ → ℤ → Bool :=
  dilate (dilate (erode (binarize map) width height 2 5) width height 3) width height 2

/-- Accumulator of SaliencyDetector.floodFillWithScores (lines 596-673). -/
structure FloodAcc where
  minX : ℤ
  minY : ℤ
  maxX : ℤ
  maxY : ℤ
  sumX : ℤ
  sumY : ℤ
  area : ℕ
  motionSum : ℚ
  luminanceSum : ℚ
  gradientSum : ℚ
  flickerSum : ℚ
deriving DecidableEq

/-- The pixel grid of a width x height frame, used as the termination
measure domain of the flood fill. -/
def gridFinset (width height : ℕ) : Finset (ℤ × ℤ) :=
  Finset.Icc (0 : ℤ) ((width : ℤ) - 1) ×ˢ Finset.Icc (0 : ℤ) ((height : ℤ) - 1)

/-- SaliencyDetector.floodFillWithScores: explicit-stack flood fill (stack
top at the list head, neighbors pushed in source order so the pop order is
down, up, left, right), accumulating extent, centroid sums, area and the
four per-cue score sums. -/
def floodFillWithScores (mask : ℤ → ℤ → Bool) (mm lm gm fm : ℤ → ℤ → ℚ)
    (width height : ℕ) :
    List (ℤ × ℤ) → Finset (ℤ × ℤ) → FloodAcc → Finset (ℤ × ℤ) × FloodAcc
  | [], visited, acc => (visited, acc)
  | (x, y) :: rest, visited, acc =>
    if h1 : x < 0 ∨ (width : ℤ) ≤ x ∨ y < 0 ∨ (height : ℤ) ≤ y then
      floodFillWithScores mask mm lm gm fm width height rest visited acc
    else if h2 : (x, y) ∈ visited ∨ mask x y = false then
      floodFillWithScores mask mm lm gm fm width height rest visited acc
    else
      floodFillWithScores mask mm lm gm fm width height
        ((x, y - 1) :: (x, y + 1) :: (x - 1, y) :: (x + 1, y) :: rest)
        (insert (x, y) visited)
        { minX := jmin acc.minX x
          minY := jmin acc.minY y
          maxX := jmax acc.maxX x
          maxY := jmax acc.maxY y
          sumX := acc.sumX + x
          sumY := acc.sumY + y
          area := acc.area + 1
          motionSum := acc.motionSum + mm x y
          luminanceSum := acc.luminanceSum + lm x y
          gradientSum := acc.gradientSum + gm x y
          flickerSum := acc.flickerSum + fm x y }
termination_by stack visited _ => ((gridFinset width height \ visited).card, stack.length)
decreasing_by
  · apply Prod.Lex.right
    simp
  · apply Prod.Lex.right
    simp
  · apply Prod.Lex.left
    push_neg at h1 h2
    have hgrid : (x, y) ∈ gridFinset width height := by
      simp only [gridFinset, Finset.mem_product, Finset.mem_Icc]
      omega
    have hmem : (x, y) ∈ gridFinset width height \ visited :=
      Finset.mem_sdiff.mpr ⟨hgrid, h2.1⟩
    apply Finset.card_lt_card
    constructor
    · intro p hp
      rcases Finset.mem_sdiff.mp hp with ⟨hpg, hpv⟩
      exact Finset.mem_sdiff.mpr ⟨hpg, fun hc => hpv (Finset.mem_insert_of_mem hc)⟩
    · intro hsub
      have := hsub hmem
      rcases Finset.mem_sdiff.mp this with ⟨_, hni⟩
      exact hni (Finset.mem_insert_self _ _)

/-- The saliency region type classification values. -/
inductive SaliencyType where
  | motion
  | light
  | hybrid
  | flicker
deriving DecidableEq

/-- A salient region as produced by findSalientRegions (extent, centroid,
area, per-cue mean scores and the derived type tag). -/
structure SalientRegion where
  bbox : BoundingBox
  centerX : ℚ
  centerY : ℚ
  area : ℕ
  motionScore : ℚ
  luminanceScore : ℚ
  gradientScore : ℚ
  flickerScore : ℚ
  rtype : SaliencyType
deriving DecidableEq

/-- Region built from a finished flood-fill accumulator, with the
classification of saliency-detector.ts lines 546-587. -/
def regionOfAcc (acc : FloodAcc) : SalientRegion :=
  let motionScore := acc.motionSum / (acc.area : ℚ)
  let luminanceScore := acc.luminanceSum / (acc.area : ℚ)
  let gradientScore := acc.gradientSum / (acc.area : ℚ)
  let flickerScore := acc.flickerSum / (acc.area : ℚ)
  let maxScore := jmax motionScore (jmax luminanceScore flickerScore)
  let rtype :=
    if 3/10 < flickerScore ∧ maxScore * (4/5) ≤ flickerScore then SaliencyType.flicker
    else if luminanceScore * (3/2) ≤ motionScore ∧ 1/5 < motionScore then SaliencyType.motion
    else if motionScore * (3/2) ≤ luminanceScore ∧ 1/5 < luminanceScore then SaliencyType.light
    else SaliencyType.hybrid
  { bbox := { x := (acc.minX : ℚ), y := (acc.minY : ℚ)
              width := ((acc.maxX - acc.minX : ℤ) : ℚ)
              height := ((acc.maxY - acc.minY : ℤ) : ℚ) }
    centerX := (acc.sumX : ℚ) / (acc.area : ℚ)
    centerY := (acc.sumY : ℚ) / (acc.area : ℚ)
    area := acc.area
    motionScore := motionScore
    luminanceScore := luminanceScore
    gradientScore := gradientScore
    flickerScore := flickerScore
    rtype := rtype }

/-- Pixels of the frame in the scan order of findSalientRegions (y outer,
x inner). -/
def pixelList (width height : ℕ) : List (ℤ × ℤ) :=
  (List.range height).flatMap (fun y => (List.range width).map (fun x => ((x : ℤ), (y : ℤ))))

/-- SaliencyDetector.findSalientRegions (lines 517-594): scan the mask,
flood-fill each unvisited active pixel and keep the regions whose area
reaches minBlobArea. -/
def findSalientRegions (mask : ℤ → ℤ → Bool) (mm lm gm fm : ℤ → ℤ → ℚ)
    (width height : ℕ) (minBlobArea : ℕ) : List SalientRegion :=
  ((pixelList width height).foldl
    (fun st p =>
      if mask p.1 p.2 = true ∧ p ∉ st.1 then
        let r := floodFillWithScores mask mm lm gm fm width height [p] st.1
          { minX := p.1, minY := p.2, maxX := p.1, maxY := p.2
            sumX := 0, sumY := 0, area := 0
            motionSum := 0, luminanceSum := 0, gradientSum := 0, flickerSum := 0 }
        if minBlobArea ≤ r.2.area then (r.1, st.2 ++ [regionOfAcc r.2]) else (r.1, st.2)
      else st)
    ((∅ : Finset (ℤ × ℤ)), ([] : List SalientRegion))).2

/-- The sample count of SaliencyDetector.updateSceneStats (lines 234-254):
the loop samples every 8th index below len. -/
def sceneSampleCount (len : ℕ) : ℕ :=
  ((List.range len).filter (fun i => decide (i % 8 = 0))).length

end SaliencyDetector

/-- Id-related tracker invariant: track ids are pairwise distinct and all
below the next id to be issued. -/
def TrackerInv (tr : Tracker) : Prop :=
  (tr.tracks.map Track.id).Nodup ∧ ∀ t ∈ tr.tracks, t.id < tr.nextTrackId

/-- A concrete model of Math.sqrt, used for closed evaluations. -/
def sqrtZero : ℚ → ℚ := fun _ => 0

/-- A concrete model of Math.pow, used for closed evaluations. -/
def powFst : ℚ → ℚ → ℚ := fun a _ => a

/-- First detection of the basic-tracking scenario. -/
def detA : Detection :=
  { bbox := { x := 0, y := 0, width := 10, height := 10 }, cls := "motion", score := 1/2 }

/-- Second detection of the basic-tracking scenario. -/
def detB : Detection :=
  { bbox := { x := 2, y := 2, width := 10, height := 10 }, cls := "motion", score := 1/2 }

/-- The track created by the first frame of the basic-tracking scenario. -/
def trackA : Track :=
  { id := 1, bbox := { x := 0, y := 0, width := 10, height := 10 }
    cls := "motion", score := 1/2, age := 1, timeSinceUpdate := 0
    velocity := (0, 0), history := [{ x := 0, y := 0, width := 10, height := 10 }] }

/-- The single track expected after the second frame of the basic-tracking
scenario: same id, age 2, smoothed velocity 0.7 * 2 = 1.4 per axis. -/
def trackAB : Track :=
  { id := 1, bbox := { x := 2, y := 2, width := 10, height := 10 }
    cls := "motion", score := 1/2, age := 2, timeSinceUpdate := 0
    velocity := (7/5, 7/5)
    history := [{ x := 0, y := 0, width := 10, height := 10 },
                { x := 2, y := 2, width := 10, height := 10 }] }

/-- A fresh tracker with the default configuration. -/
def freshTracker : Tracker :=
  { tracks := [], nextTrackId := 1, config := DEFAULT_TRACKER_CONFIG }

/-- A fresh tracker configured with maxAge = 0, a degenerate but accepted
configuration. -/
def maxAgeZeroTracker : Tracker :=
  { tracks := [], nextTrackId := 1
    config := { iouThreshold := 1/10, maxAge := 0, minHits := 1, maxLineDistance := 400 } }

/-- Concrete 5x5 test mask: a 3x3 block of active pixels centered at
(2, 2). -/
def blockMask : ℤ → ℤ → Bool :=
  fun x y => decide (1 ≤ x ∧ x ≤ 3 ∧ 1 ≤ y ∧ y ≤ 3)

/-- All-zero saliency map. -/
def zeroMap : ℤ → ℤ → ℚ := fun _ _ => 0

/-- A zero-area bounding box. -/
def zeroBox : BoundingBox := { x := 0, y := 0, width := 0, height := 0 }

/-- A unit-area bounding box. -/
def unitBox : BoundingBox := { x := 0, y := 0, width := 1, height := 1 }

/-! ### Helper lemmas about the tracker embedding -/

theorem scoreEntryOf_di (sqrtFn : ℚ → ℚ) (det : Detection) (track : Track) (di ti : ℕ) :
    (scoreEntryOf sqrtFn det track di ti).di = di := rfl

theorem scoreEntryOf_ti (sqrtFn : ℚ → ℚ) (det : Detection) (track : Track) (di ti : ℕ) :
    (scoreEntryOf sqrtFn det track di ti).ti = ti := rfl

theorem mem_candidatePairs {sqrtFn : ℚ → ℚ} {dets : List Detection}
    {tracks : List Track} {thr : ℚ} {e : ScoreEntry} :
    e ∈ candidatePairs sqrtFn dets tracks thr ↔
      ∃ di, di < dets.length ∧ ∃ ti, ti < tracks.length ∧
        isCandidate thr
          (scoreEntryOf sqrtFn (dets.getD di defaultDetection)
            (tracks.getD ti defaultTrack) di ti)
          (tracks.getD ti defaultTrack) ∧
        e = scoreEntryOf sqrtFn (dets.getD di defaultDetection)
          (tracks.getD ti defaultTrack) di ti := by
  simp only [candidatePairs, List.mem_flatMap, List.mem_filterMap, List.mem_range]
  constructor
  · rintro ⟨di, hdi, ti, hti, hsome⟩
    split_ifs at hsome with hc
    injection hsome with h
    exact ⟨di, hdi, ti, hti, hc, h.symm⟩
  · rintro ⟨di, hdi, ti, hti, hc, rfl⟩
    exact ⟨di, hdi, ti, hti, by rw [if_pos hc]⟩

theorem mem_insertByScore {e a : ScoreEntry} :
    ∀ {l : List ScoreEntry}, a ∈ insertByScore e l ↔ a = e ∨ a ∈ l := by
  intro l
  induction l with
  | nil => simp [insertByScore]
  | cons b bs ih =>
    simp only [insertByScore]
    split_ifs with hle
    · simp
    · simp only [List.mem_cons, ih]
      tauto

theorem mem_sortByScoreDesc {a : ScoreEntry} :
    ∀ {l : List ScoreEntry}, a ∈ sortByScoreDesc l ↔ a ∈ l := by
  intro l
  induction l with
  | nil => simp [sortByScoreDesc]
  | cons b bs ih =>
    simp only [sortByScoreDesc, mem_insertByScore, ih, List.mem_cons]

theorem greedy_foldl_spec :
    ∀ (l : List ScoreEntry) (s : GreedyState),
      s.usedD = s.matched.map Prod.fst → s.usedT = s.matched.map Prod.snd →
      s.usedD.Nodup → s.usedT.Nodup →
      (l.foldl greedyStep s).usedD = (l.foldl greedyStep s).matched.map Prod.fst ∧
      (l.foldl greedyStep s).usedT = (l.foldl greedyStep s).matched.map Prod.snd ∧
      (l.foldl greedyStep s).usedD.Nodup ∧
      (l.foldl greedyStep s).usedT.Nodup ∧
      ∀ p ∈ (l.foldl greedyStep s).matched, p ∈ s.matched ∨ ∃ e ∈ l, p = (e.di, e.ti) := by
  intro l
  induction l with
  | nil =>
    intro s h1 h2 h3 h4
    exact ⟨h1, h2, h3, h4, fun p hp => Or.inl hp⟩
  | cons e es ih =>
    intro s h1 h2 h3 h4
    simp only [List.foldl_cons]
    by_cases hc : e.di ∉ s.usedD ∧ e.ti ∉ s.usedT
    · have hstep : greedyStep s e =
          { matched := s.matched ++ [(e.di, e.ti)]
            usedD := s.usedD ++ [e.di]
            usedT := s.usedT ++ [e.ti] } := by
        simp [greedyStep, hc]
      rw [hstep]
      have h1' : s.usedD ++ [e.di] =
          (s.matched ++ [(e.di, e.ti)]).map Prod.fst := by
        simp [h1]
      have h2' : s.usedT ++ [e.ti] =
          (s.matched ++ [(e.di, e.ti)]).map Prod.snd := by
        simp [h2]
      have h3' : (s.usedD ++ [e.di]).Nodup := by
        simp only [List.nodup_append, List.nodup_cons, List.not_mem_nil,
          not_false_iff, List.nodup_nil, and_true, true_and]
        constructor
        · exact h3
        · intro a ha hb
          simp only [List.mem_singleton] at hb
          subst hb
          exact hc.1 ha
      have h4' : (s.usedT ++ [e.ti]).Nodup := by
        simp only [List.nodup_append, List.nodup_cons, List.not_mem_nil,
          not_false_iff, List.nodup_nil, and_true, true_and]
        constructor
        · exact h4
        · intro a ha hb
          simp only [List.mem_singleton] at hb
          subst hb
          exact hc.2 ha
      obtain ⟨g1, g2, g3, g4, g5⟩ := ih
        { matched := s.matched ++ [(e.di, e.ti)]
          usedD := s.usedD ++ [e.di]
          usedT := s.usedT ++ [e.ti] } h1' h2' h3' h4'
      refine ⟨g1, g2, g3, g4, fun p hp => ?_⟩
      rcases g5 p hp with hin | ⟨e2, he2, rfl⟩
      · rcases List.mem_append.mp hin with hin2 | hin2
        · exact Or.inl hin2
        · simp only [List.mem_singleton] at hin2
          exact Or.inr ⟨e, List.mem_cons_self e es, hin2⟩
      · exact Or.inr ⟨e2, List.mem_cons_of_mem e he2, rfl⟩
    · have hstep : greedyStep s e = s := by
        simp [greedyStep, hc]
      rw [hstep]
      obtain ⟨g1, g2, g3, g4, g5⟩ := ih s h1 h2 h3 h4
      refine ⟨g1, g2, g3, g4, fun p hp => ?_⟩
      rcases g5 p hp with hin | ⟨e2, he2, hpe⟩
      · exact Or.inl hin
      · exact Or.inr ⟨e2, List.mem_cons_of_mem e he2, hpe⟩

theorem matchResult_spec (sqrtFn : ℚ → ℚ) (dets : List Detection)
    (tracks : List Track) (thr : ℚ) :
    ((matchDetectionsToTracks sqrtFn dets tracks thr).matched.map Prod.fst).Nodup ∧
    ((matchDetectionsToTracks sqrtFn dets tracks thr).matched.map Prod.snd).Nodup ∧
    (∀ p ∈ (matchDetectionsToTracks sqrtFn dets tracks thr).matched,
      ∃ e ∈ candidatePairs sqrtFn dets tracks thr, p = (e.di, e.ti)) ∧
    (∀ i, i ∈ (matchDetectionsToTracks sqrtFn dets tracks thr).unmatchedDetections ↔
      i < dets.length ∧
        i ∉ (matchDetectionsToTracks sqrtFn dets tracks thr).matched.map Prod.fst) ∧
    (∀ i, i ∈ (matchDetectionsToTracks sqrtFn dets tracks thr).unmatchedTracks ↔
      i < tracks.length ∧
        i ∉ (matchDetectionsToTracks sqrtFn dets tracks thr).matched.map Prod.snd) := by
  have h := greedy_foldl_spec
    (sortByScoreDesc (candidatePairs sqrtFn dets tracks thr))
    { matched := [], usedD := [], usedT := [] }
    rfl rfl List.nodup_nil List.nodup_nil
  obtain ⟨g1, g2, g3, g4, g5⟩ := h
  refine ⟨?_, ?_, ?_, ?_, ?_⟩
  · rw [matchDetectionsToTracks] at *
    rw [← g1]
    exact g3
  · rw [matchDetectionsToTracks] at *
    rw [← g2]
    exact g4
  · intro p hp
    rcases g5 p hp with hin | ⟨e, he, hpe⟩
    · cases hin
    · exact ⟨e, mem_sortByScoreDesc.mp he, hpe⟩
  · intro i
    show i ∈ (List.range dets.length).filter _ ↔ _
    rw [List.mem_filter, List.mem_range]
    constructor
    · rintro ⟨hlt, hd⟩
      rw [decide_eq_true_eq] at hd
      exact ⟨hlt, g1 ▸ hd⟩
    · rintro ⟨hlt, hd⟩
      refine ⟨hlt, ?_⟩
      rw [decide_eq_true_eq]
      exact g1 ▸ hd
  · intro i
    show i ∈ (List.range tracks.length).filter _ ↔ _
    rw [List.mem_filter, List.mem_range]
    constructor
    · rintro ⟨hlt, hd⟩
      rw [decide_eq_true_eq] at hd
      exact ⟨hlt, g2 ▸ hd⟩
    · rintro ⟨hlt, hd⟩
      refine ⟨hlt, ?_⟩
      rw [decide_eq_true_eq]
      exact g2 ▸ hd

theorem modifyIdx_map_invariant {α β : Type} (g : α → β) (f : α → α)
    (h : ∀ a, g (f a) = g a) :
    ∀ (l : List α) (i : ℕ), (modifyIdx l i f).map g = l.map g := by
  intro l
  induction l with
  | nil => intro i; rfl
  | cons a as ih =>
    intro i
    cases i with
    | zero => simp [modifyIdx, h]
    | succ n => simp [modifyIdx, ih]

theorem matchedUpdate_id (det : Detection) (t : Track) :
    (matchedUpdate det t).id = t.id := rfl

theorem agedUpdate_id (t : Track) : (agedUpdate t).id = t.id := by
  simp only [agedUpdate]
  split <;> rfl

theorem applyMatched_map_id (dets : List Detection) :
    ∀ (pairs : List (ℕ × ℕ)) (l : List Track),
      (applyMatched dets pairs l).map Track.id = l.map Track.id := by
  intro pairs
  induction pairs with
  | nil => intro l; rfl
  | cons p ps ih =>
    intro l
    simp only [applyMatched, List.foldl_cons]
    rw [show (List.foldl (fun ts q => modifyIdx ts q.2
        (matchedUpdate (dets.getD q.1 defaultDetection))) (modifyIdx l p.2
        (matchedUpdate (dets.getD p.1 defaultDetection))) ps) =
      applyMatched dets ps (modifyIdx l p.2
        (matchedUpdate (dets.getD p.1 defaultDetection))) from rfl]
    rw [ih]
    exact modifyIdx_map_invariant Track.id _ (matchedUpdate_id _) l p.2

theorem applyAging_map_id :
    ∀ (idxs : List ℕ) (l : List Track),
      (applyAging idxs l).map Track.id = l.map Track.id := by
  intro idxs
  induction idxs with
  | nil => intro l; rfl
  | cons i is ih =>
    intro l
    simp only [applyAging, List.foldl_cons]
    rw [show (List.foldl (fun ts ti => modifyIdx ts ti agedUpdate)
        (modifyIdx l i agedUpdate) is) =
      applyAging is (modifyIdx l i agedUpdate) from rfl]
    rw [ih]
    exact modifyIdx_map_invariant Track.id _ agedUpdate_id l i

theorem processedOld_map_id (sqrtFn : ℚ → ℚ) (tr : Tracker) (dets : List Detection) :
    (processedOld sqrtFn tr dets).map Track.id = tr.tracks.map Track.id := by
  rw [processedOld, applyAging_map_id, applyMatched_map_id]

theorem newTracksList_length (dets : List Detection) :
    ∀ (idxs : List ℕ) (nid : ℕ), (newTracksList dets idxs nid).length = idxs.length := by
  intro idxs
  induction idxs with
  | nil => intro nid; rfl
  | cons i is ih => intro nid; simp [newTracksList, ih]

theorem newTracksList_id_ge (dets : List Detection) :
    ∀ (idxs : List ℕ) (nid : ℕ) (t : Track), t ∈ newTracksList dets idxs nid →
      nid ≤ t.id := by
  intro idxs
  induction idxs with
  | nil => intro nid t ht; cases ht
  | cons i is ih =>
    intro nid t ht
    rcases List.mem_cons.mp ht with rfl | ht2
    · exact le_refl _
    · exact le_trans (Nat.le_succ nid) (ih (nid + 1) t ht2)

theorem newTracksList_id_lt (dets : List Detection) :
    ∀ (idxs : List ℕ) (nid : ℕ) (t : Track), t ∈ newTracksList dets idxs nid →
      t.id < nid + idxs.length := by
  intro idxs
  induction idxs with
  | nil => intro nid t ht; cases ht
  | cons i is ih =>
    intro nid t ht
    rcases List.mem_cons.mp ht with rfl | ht2
    · simp [newTrackOf]
    · have := ih (nid + 1) t ht2
      simp only [List.length_cons]
      omega

theorem newTracksList_pairwise (dets : List Detection) :
    ∀ (idxs : List ℕ) (nid : ℕ),
      ((newTracksList dets idxs nid).map Track.id).Pairwise (· < ·) := by
  intro idxs
  induction idxs with
  | nil => intro nid; simp [newTracksList]
  | cons i is ih =>
    intro nid
    simp only [newTracksList, List.map_cons, List.pairwise_cons]
    refine ⟨?_, ih (nid + 1)⟩
    intro b hb
    rcases List.mem_map.mp hb with ⟨t, ht, rfl⟩
    have := newTracksList_id_ge dets is (nid + 1) t ht
    show (newTrackOf (dets.getD i defaultDetection) nid).id < t.id
    simp only [newTrackOf]
    omega

theorem newTracksList_fresh (dets : List Detection) :
    ∀ (idxs : List ℕ) (nid : ℕ) (t : Track), t ∈ newTracksList dets idxs nid →
      t.age = 1 ∧ t.timeSinceUpdate = 0 := by
  intro idxs
  induction idxs with
  | nil => intro nid t ht; cases ht
  | cons i is ih =>
    intro nid t ht
    rcases List.mem_cons.mp ht with rfl | ht2
    · exact ⟨rfl, rfl⟩
    · exact ih (nid + 1) t ht2

theorem update_tracks_eq (sqrtFn : ℚ → ℚ) (tr : Tracker) (dets : List Detection) :
    (Tracker.update sqrtFn tr dets).1.tracks =
      (processedOld sqrtFn tr dets ++
        newTracksList dets
          (matchDetectionsToTracks sqrtFn dets tr.tracks tr.config.iouThreshold).unmatchedDetections
          tr.nextTrackId).filter
        (fun t => decide (t.timeSinceUpdate < tr.config.maxAge)) := rfl

theorem update_result_eq (sqrtFn : ℚ → ℚ) (tr : Tracker) (dets : List Detection) :
    (Tracker.update sqrtFn tr dets).2 =
      (Tracker.update sqrtFn tr dets).1.tracks.filter
        (fun t => decide (tr.config.minHits ≤ t.age ∨ t.timeSinceUpdate = 0)) := rfl

theorem update_nextId_eq (sqrtFn : ℚ → ℚ) (tr : Tracker) (dets : List Detection) :
    (Tracker.update sqrtFn tr dets).1.nextTrackId =
      tr.nextTrackId +
        (matchDetectionsToTracks sqrtFn dets tr.tracks tr.config.iouThreshold).unmatchedDetections.length := rfl

theorem update_config_eq (sqrtFn : ℚ → ℚ) (tr : Tracker) (dets : List Detection) :
    (Tracker.update sqrtFn tr dets).1.config = tr.config := rfl

/-! ### Claim theorems -/

/-- Claim C5, counterexample: the claim quantifies over all boxes with
non-negative width and height, but for the zero-area box Z the code's
union-positivity guard makes calculateIoU Z Z = 0, not 1. -/
theorem claim_C5_counterexample :
    0 ≤ zeroBox.width ∧ 0 ≤ zeroBox.height ∧
    calculateIoU zeroBox zeroBox = 0 ∧ (0 : ℚ) ≠ 1 := by
  refine ⟨by norm_num [zeroBox], by norm_num [zeroBox], ?_, by norm_num⟩
  norm_num [calculateIoU, jmax, jmin, zeroBox]

/-- Claim C5 (amended): calculateIoU is symmetric for all boxes, is 0 for
non-overlapping boxes, and equals 1 on identical boxes of positive width
and height (for a zero-area box the union guard yields 0 instead). -/
theorem claim_C5 :
    (∀ A B : BoundingBox, calculateIoU A B = calculateIoU B A) ∧
    (∀ A B : BoundingBox,
      min (A.x + A.width) (B.x + B.width) ≤ max A.x B.x ∨
      min (A.y + A.height) (B.y + B.height) ≤ max A.y B.y →
      calculateIoU A B = 0) ∧
    (∀ A : BoundingBox, 0 < A.width → 0 < A.height → calculateIoU A A = 1) := by
  refine ⟨?_, ?_, ?_⟩
  · intro A B
    simp only [calculateIoU, jmax_eq, jmin_eq]
    rw [max_comm A.x B.x, max_comm A.y B.y,
      min_comm (A.x + A.width) (B.x + B.width),
      min_comm (A.y + A.height) (B.y + B.height),
      add_comm (A.width * A.height) (B.width * B.height)]
  · intro A B h
    simp only [calculateIoU, jmax_eq, jmin_eq]
    rcases h with h | h
    · rw [show max 0 (min (A.x + A.width) (B.x + B.width) - max A.x B.x) = 0 from
        max_eq_left (by linarith), zero_mul]
      split_ifs with h2
      · exact zero_div _
      · rfl
    · rw [show max 0 (min (A.y + A.height) (B.y + B.height) - max A.y B.y) = 0 from
        max_eq_left (by linarith), mul_zero]
      split_ifs with h2
      · exact zero_div _
      · rfl
  · intro A hw hh
    simp only [calculateIoU, jmax_eq, jmin_eq, max_self, min_self]
    rw [show A.x + A.width - A.x = A.width from by ring,
      show A.y + A.height - A.y = A.height from by ring,
      max_eq_right hw.le, max_eq_right hh.le,
      show A.width * A.height + A.width * A.height - A.width * A.height =
        A.width * A.height from by ring]
    rw [if_pos (mul_pos hw hh)]
    exact div_self (ne_of_gt (mul_pos hw hh))

/-- Claim C5 witness: the amended identical-box part evaluated at the unit
box. -/
theorem claim_C5_witness : calculateIoU unitBox unitBox = 1 :=
  claim_C5.2.2 unitBox (by norm_num [unitBox]) (by norm_num [unitBox])

/-- Claim C7: at the 5x5 mask holding a 3x3 active block, pixel (1, 1) is
active in the input and would be active after the documented
erosion-then-dilation opening, but MotionDetector.morphologicalClean
performs only the single count-at-least-5 pass and never dilates, so the
pixel comes out inactive and the blob extent is not restored. -/
theorem claim_C7 :
    blockMask 1 1 = true ∧
    MotionDetector.morphologicalClean blockMask 5 5 1 1 = false ∧
    specOpeningClean blockMask 5 5 1 1 = true := by
  decide

/-- Claim C2: after any Tracker.update call, every internal and every
returned track has timeSinceUpdate < maxAge (so a track whose
timeSinceUpdate reached maxAge during the call has been removed from the
collection and the result); every processed track with
timeSinceUpdate < maxAge is retained; and an id absent from the
collection and below the id counter never reappears in any later state,
since the counter only grows. -/
theorem claim_C2 (sqrtFn : ℚ → ℚ) (tr : Tracker) (dets : List Detection) :
    (∀ t ∈ (Tracker.update sqrtFn tr dets).1.tracks,
      t.timeSinceUpdate < tr.config.maxAge) ∧
    (∀ t ∈ (Tracker.update sqrtFn tr dets).2,
      t ∈ (Tracker.update sqrtFn tr dets).1.tracks) ∧
    (∀ t ∈ processedOld sqrtFn tr dets ++
        newTracksList dets
          (matchDetectionsToTracks sqrtFn dets tr.tracks tr.config.iouThreshold).unmatchedDetections
          tr.nextTrackId,
      t.timeSinceUpdate < tr.config.maxAge →
      t ∈ (Tracker.update sqrtFn tr dets).1.tracks) ∧
    (∀ j : ℕ, (∀ t ∈ tr.tracks, t.id ≠ j) → j < tr.nextTrackId →
      (∀ t ∈ (Tracker.update sqrtFn tr dets).1.tracks, t.id ≠ j) ∧
      tr.nextTrackId ≤ (Tracker.update sqrtFn tr dets).1.nextTrackId) := by
  refine ⟨?_, ?_, ?_, ?_⟩
  · intro t ht
    rw [update_tracks_eq] at ht
    have h2 := (List.mem_filter.mp ht).2
    rwa [decide_eq_true_eq] at h2
  · intro t ht
    rw [update_result_eq] at ht
    exact (List.mem_filter.mp ht).1
  · intro t ht h
    rw [update_tracks_eq]
    exact List.mem_filter.mpr ⟨ht, by rwa [decide_eq_true_eq]⟩
  · intro j hj hlt
    constructor
    · intro t ht
      rw [update_tracks_eq] at ht
      rcases List.mem_append.mp (List.mem_filter.mp ht).1 with hp | hn
      · have hmap : t.id ∈ (processedOld sqrtFn tr dets).map Track.id :=
          List.mem_map_of_mem Track.id hp
        rw [processedOld_map_id] at hmap
        rcases List.mem_map.mp hmap with ⟨u, hu, hid⟩
        intro hEq
        exact hj u hu (by rw [hid, hEq])
      · have := newTracksList_id_ge dets _ tr.nextTrackId t hn
        intro hEq
        omega
    · rw [update_nextId_eq]
      omega

/-- Claim C2 witness: the removal and id-monotonicity facts applied to a
fresh default tracker receiving one detection. -/
theorem claim_C2_witness :
    (∀ t ∈ (Tracker.update sqrtZero freshTracker [detA]).1.tracks, t.id ≠ 0) ∧
    freshTracker.nextTrackId ≤ (Tracker.update sqrtZero freshTracker [detA]).1.nextTrackId :=
  (claim_C2 sqrtZero freshTracker [detA]).2.2.2 0
    (by intro t ht; cases ht) (by decide)

/-- Claim C3, counterexample: a fresh tracker configured with maxAge = 0
(an accepted, if degenerate, configuration) receives one detection.  The
call creates exactly the track newTrackOf detA 1 with age 1 and
timeSinceUpdate 0 and advances the id counter from 1 to 2, yet the call
returns the empty array: the created track is pruned by the
timeSinceUpdate < maxAge filter inside the very same call, so the claimed
unconditional inclusion regardless of minHits fails. -/
theorem claim_C3_counterexample :
    (newTrackOf detA 1).age = 1 ∧
    (newTrackOf detA 1).timeSinceUpdate = 0 ∧
    newTracksList [detA]
      (matchDetectionsToTracks sqrtZero [detA] maxAgeZeroTracker.tracks
        maxAgeZeroTracker.config.iouThreshold).unmatchedDetections
      maxAgeZeroTracker.nextTrackId = [newTrackOf detA 1] ∧
    (Tracker.update sqrtZero maxAgeZeroTracker [detA]).1.nextTrackId = 2 ∧
    (Tracker.update sqrtZero maxAgeZeroTracker [detA]).2 = [] := by
  exact ⟨rfl, rfl, rfl, rfl, rfl⟩

/-- Claim C3 (amended): the returned array is exactly the live tracks with
age at least minHits or timeSinceUpdate 0, and, provided maxAge is at
least 1, a track created in the current call (age 1, timeSinceUpdate 0) is
included in that same call's result regardless of minHits; with maxAge = 0
such a track is pruned in the same call. -/
theorem claim_C3 (sqrtFn : ℚ → ℚ) (tr : Tracker) (dets : List Detection) :
    ((Tracker.update sqrtFn tr dets).2 =
      (Tracker.update sqrtFn tr dets).1.tracks.filter
        (fun t => decide (tr.config.minHits ≤ t.age ∨ t.timeSinceUpdate = 0))) ∧
    (∀ t, t ∈ (Tracker.update sqrtFn tr dets).2 ↔
      t ∈ (Tracker.update sqrtFn tr dets).1.tracks ∧
      (tr.config.minHits ≤ t.age ∨ t.timeSinceUpdate = 0)) ∧
    (1 ≤ tr.config.maxAge →
      ∀ t ∈ newTracksList dets
          (matchDetectionsToTracks sqrtFn dets tr.tracks tr.config.iouThreshold).unmatchedDetections
          tr.nextTrackId,
        t ∈ (Tracker.update sqrtFn tr dets).2 ∧ t.age = 1 ∧ t.timeSinceUpdate = 0) := by
  refine ⟨update_result_eq sqrtFn tr dets, ?_, ?_⟩
  · intro t
    rw [update_result_eq, List.mem_filter, decide_eq_true_eq]
  · intro hage t ht
    obtain ⟨h1, h0⟩ := newTracksList_fresh dets _ tr.nextTrackId t ht
    refine ⟨?_, h1, h0⟩
    rw [update_result_eq]
    refine List.mem_filter.mpr ⟨?_, ?_⟩
    · rw [update_tracks_eq]
      refine List.mem_filter.mpr ⟨List.mem_append_right _ ht, ?_⟩
      rw [decide_eq_true_eq, h0]
      omega
    · rw [decide_eq_true_eq]
      exact Or.inr h0

/-- Claim C3 witness: with the default configuration, the track created for
a first detection appears in the same call's result. -/
theorem claim_C3_witness :
    newTrackOf detA 1 ∈ (Tracker.update sqrtZero freshTracker [detA]).2 :=
  ((claim_C3 sqrtZero freshTracker [detA]).2.2 (by decide)
    (newTrackOf detA 1) (List.mem_cons_self _ _)).1

/-- Claim C4: updates preserve uniqueness of ids together with the bound
by the id counter, the batch of ids issued in one update is strictly
increasing starting at the current counter, the counter never decreases,
and reset clears the tracks and restarts the counter at 1. -/
theorem claim_C4 (sqrtFn : ℚ → ℚ) (tr : Tracker) (dets : List Detection) :
    (TrackerInv tr → TrackerInv (Tracker.update sqrtFn tr dets).1) ∧
    ((newTracksList dets
        (matchDetectionsToTracks sqrtFn dets tr.tracks tr.config.iouThreshold).unmatchedDetections
        tr.nextTrackId).map Track.id).Pairwise (· < ·) ∧
    (∀ t ∈ newTracksList dets
        (matchDetectionsToTracks sqrtFn dets tr.tracks tr.config.iouThreshold).unmatchedDetections
        tr.nextTrackId,
      tr.nextTrackId ≤ t.id) ∧
    tr.nextTrackId ≤ (Tracker.update sqrtFn tr dets).1.nextTrackId ∧
    (Tracker.reset tr).tracks = [] ∧ (Tracker.reset tr).nextTrackId = 1 := by
  refine ⟨?_, newTracksList_pairwise dets _ _,
    fun t ht => newTracksList_id_ge dets _ _ t ht,
    by rw [update_nextId_eq]; omega, rfl, rfl⟩
  rintro ⟨hnd, hbound⟩
  constructor
  · rw [update_tracks_eq]
    have hsub : List.Sublist
        (((processedOld sqrtFn tr dets ++
          newTracksList dets
            (matchDetectionsToTracks sqrtFn dets tr.tracks tr.config.iouThreshold).unmatchedDetections
            tr.nextTrackId).filter
            (fun t => decide (t.timeSinceUpdate < tr.config.maxAge))).map Track.id)
        ((processedOld sqrtFn tr dets ++
          newTracksList dets
            (matchDetectionsToTracks sqrtFn dets tr.tracks tr.config.iouThreshold).unmatchedDetections
            tr.nextTrackId).map Track.id) :=
      List.Sublist.map Track.id (List.filter_sublist _)
    refine List.Nodup.sublist hsub ?_
    rw [List.map_append, List.nodup_append]
    refine ⟨by rwa [processedOld_map_id], ?_, ?_⟩
    · exact (newTracksList_pairwise dets _ _).imp (fun h => ne_of_lt h)
    · intro a ha hb
      rw [processedOld_map_id] at ha
      rcases List.mem_map.mp ha with ⟨u, hu, hid⟩
      rcases List.mem_map.mp hb with ⟨v, hv, hid2⟩
      have h1 := hbound u hu
      have h2 := newTracksList_id_ge dets _ tr.nextTrackId v hv
      omega
  · intro t ht
    rw [update_tracks_eq] at ht
    rw [update_nextId_eq]
    rcases List.mem_append.mp (List.mem_filter.mp ht).1 with hp | hn
    · have hmap : t.id ∈ (processedOld sqrtFn tr dets).map Track.id :=
        List.mem_map_of_mem Track.id hp
      rw [processedOld_map_id] at hmap
      rcases List.mem_map.mp hmap with ⟨u, hu, hid⟩
      have := hbound u hu
      omega
    · have := newTracksList_id_lt dets _ tr.nextTrackId t hn
      omega

/-- Claim C4 witness: invariant preservation evaluated on a fresh default
tracker receiving one detection. -/
theorem claim_C4_witness :
    TrackerInv (Tracker.update sqrtZero freshTracker [detA]).1 :=
  (claim_C4 sqrtZero freshTracker [detA]).1
    ⟨List.nodup_nil, fun t ht => absurd ht (List.not_mem_nil t)⟩

/-- Claim C10, counterexample: with the accepted degenerate configuration
maxAge = 0 the new track created for the unmatched detection is pruned
inside the same call, so the internal track count (0) is not the number of
surviving previous tracks (0) plus the number of unmatched detections
(1). -/
theorem claim_C10_counterexample :
    (Tracker.update sqrtZero maxAgeZeroTracker [detA]).1.tracks.length ≠
      ((processedOld sqrtZero maxAgeZeroTracker [detA]).filter
        (fun t => decide (t.timeSinceUpdate < maxAgeZeroTracker.config.maxAge))).length +
      (matchDetectionsToTracks sqrtZero [detA] maxAgeZeroTracker.tracks
        maxAgeZeroTracker.config.iouThreshold).unmatchedDetections.length := by
  decide

/-- Claim C10 (amended): the greedy assignment is a partial injection
(each detection index and track index in at most one matched pair, all in
range) and the unmatched detections are exactly the detection indices
missing from the matched pairs; and, provided maxAge is at least 1, the
internal track count after the call is the number of surviving previous
tracks plus the number of unmatched detections (with maxAge = 0 the new
tracks are pruned in the same call). -/
theorem claim_C10 :
    (∀ (sqrtFn : ℚ → ℚ) (dets : List Detection) (tracks : List Track) (thr : ℚ),
      ((matchDetectionsToTracks sqrtFn dets tracks thr).matched.map Prod.fst).Nodup ∧
      ((matchDetectionsToTracks sqrtFn dets tracks thr).matched.map Prod.snd).Nodup ∧
      (∀ p ∈ (matchDetectionsToTracks sqrtFn dets tracks thr).matched,
        p.1 < dets.length ∧ p.2 < tracks.length) ∧
      (∀ i, i ∈ (matchDetectionsToTracks sqrtFn dets tracks thr).unmatchedDetections ↔
        i < dets.length ∧
          ∀ p ∈ (matchDetectionsToTracks sqrtFn dets tracks thr).matched, p.1 ≠ i)) ∧
    (∀ (sqrtFn : ℚ → ℚ) (tr : Tracker) (dets : List Detection),
      1 ≤ tr.config.maxAge →
      (Tracker.update sqrtFn tr dets).1.tracks.length =
        ((processedOld sqrtFn tr dets).filter
          (fun t => decide (t.timeSinceUpdate < tr.config.maxAge))).length +
        (matchDetectionsToTracks sqrtFn dets tr.tracks tr.config.iouThreshold).unmatchedDetections.length) := by
  constructor
  · intro sqrtFn dets tracks thr
    obtain ⟨g1, g2, g3, g4, g5⟩ := matchResult_spec sqrtFn dets tracks thr
    refine ⟨g1, g2, ?_, ?_⟩
    · intro p hp
      rcases g3 p hp with ⟨e, he, rfl⟩
      rcases mem_candidatePairs.mp he with ⟨di, hdi, ti, hti, _, rfl⟩
      exact ⟨hdi, hti⟩
    · intro i
      rw [g4 i]
      constructor
      · rintro ⟨hlt, hni⟩
        refine ⟨hlt, fun p hp hEq => hni ?_⟩
        rw [← hEq]
        exact List.mem_map_of_mem Prod.fst hp
      · rintro ⟨hlt, hne⟩
        refine ⟨hlt, fun hin => ?_⟩
        rcases List.mem_map.mp hin with ⟨p, hp, hpe⟩
        exact hne p hp hpe
  · intro sqrtFn tr dets hage
    rw [update_tracks_eq, List.filter_append, List.length_append]
    congr 1
    rw [List.filter_eq_self.mpr, newTracksList_length]
    intro t ht
    rw [decide_eq_true_eq, (newTracksList_fresh dets _ tr.nextTrackId t ht).2]
    omega

/-- Claim C10 witness: the track-count identity evaluated on a fresh
default tracker receiving one detection. -/
theorem claim_C10_witness :
    (Tracker.update sqrtZero freshTracker [detA]).1.tracks.length =
      ((processedOld sqrtZero freshTracker [detA]).filter
        (fun t => decide (t.timeSinceUpdate < freshTracker.config.maxAge))).length +
      (matchDetectionsToTracks sqrtZero [detA] freshTracker.tracks
        freshTracker.config.iouThreshold).unmatchedDetections.length :=
  claim_C10.2 sqrtZero freshTracker [detA] (by decide)

/-- Claim C1: for every detection-track pair considered by Tracker.update,
the pair enters the candidate list exactly when score >= iouThreshold or
centerDistance < max(track width, track height, 150), and the candidate
score is iou + 0.5 * distanceScore when iou > 0.05 and 0.8 * distanceScore
otherwise, with distanceScore = max(0, 1 - centerDistance / maxDist) and
the IoU taken against the track's bbox advanced by its velocity. -/
theorem claim_C1 (sqrtFn : ℚ → ℚ) (dets : List Detection) (tracks : List Track)
    (thr : ℚ) (di ti : ℕ) (hdi : di < dets.length) (hti : ti < tracks.length) :
    let det := dets.getD di defaultDetection
    let track := tracks.getD ti defaultTrack
    let predicted : BoundingBox :=
      { x := track.bbox.x + track.velocity.1, y := track.bbox.y + track.velocity.2
        width := track.bbox.width, height := track.bbox.height }
    let iou := calculateIoU det.bbox predicted
    let cDist := sqrtFn
      (((det.bbox.x + det.bbox.width / 2) - (predicted.x + predicted.width / 2)) *
        ((det.bbox.x + det.bbox.width / 2) - (predicted.x + predicted.width / 2)) +
       ((det.bbox.y + det.bbox.height / 2) - (predicted.y + predicted.height / 2)) *
        ((det.bbox.y + det.bbox.height / 2) - (predicted.y + predicted.height / 2)))
    let maxDist := jmax track.bbox.width (jmax track.bbox.height 150)
    let distanceScore := jmax 0 (1 - cDist / maxDist)
    let score := if 1/20 < iou then iou + distanceScore * (1/2) else distanceScore * (4/5)
    ((∃ e ∈ candidatePairs sqrtFn dets tracks thr, e.di = di ∧ e.ti = ti) ↔
      (thr ≤ score ∨ cDist < maxDist)) ∧
    (∀ e ∈ candidatePairs sqrtFn dets tracks thr, e.di = di → e.ti = ti →
      e.score = score ∧ e.iou = iou ∧ e.distance = cDist) := by
  intro det track predicted iou cDist maxDist distanceScore score
  have hentry : scoreEntryOf sqrtFn det track di ti =
      { di := di, ti := ti, score := score, iou := iou, distance := cDist } := rfl
  have hcand : isCandidate thr (scoreEntryOf sqrtFn det track di ti) track ↔
      (thr ≤ score ∨ cDist < maxDist) := Iff.rfl
  constructor
  · constructor
    · rintro ⟨e, he, hdieq, htieq⟩
      rcases mem_candidatePairs.mp he with ⟨di2, hdi2, ti2, hti2, hc, rfl⟩
      rw [scoreEntryOf_di] at hdieq
      rw [scoreEntryOf_ti] at htieq
      subst hdieq
      subst htieq
      exact hcand.mp hc
    · intro h
      exact ⟨scoreEntryOf sqrtFn det track di ti,
        mem_candidatePairs.mpr ⟨di, hdi, ti, hti, hcand.mpr h, rfl⟩,
        scoreEntryOf_di sqrtFn det track di ti, scoreEntryOf_ti sqrtFn det track di ti⟩
  · intro e he hdieq htieq
    rcases mem_candidatePairs.mp he with ⟨di2, hdi2, ti2, hti2, hc, rfl⟩
    rw [scoreEntryOf_di] at hdieq
    rw [scoreEntryOf_ti] at htieq
    subst hdieq
    subst htieq
    rw [hentry]
    exact ⟨rfl, rfl, rfl⟩

/-- Claim C1 witness: in the second frame of the basic-tracking scenario
the single detection-track pair enters the candidate list. -/
theorem claim_C1_witness :
    ∃ e ∈ candidatePairs sqrtZero [detB] [trackA] (1/10), e.di = 0 ∧ e.ti = 0 := by
  refine ((claim_C1 sqrtZero [detB] [trackA] (1/10) 0 0 (by decide) (by decide)).1).mpr ?_
  refine Or.inr ?_
  norm_num [sqrtZero, jmax, trackA, detB]

theorem fusePixel_zero_weights (powFn : ℚ → ℚ → ℚ) (m l g f : ℚ) :
    SaliencyDetector.fusePixel powFn 0 0 0 0 m l g f = JSNum.nan := by
  simp [SaliencyDetector.fusePixel, JSNum.jsDiv, JSNum.jsMul, JSNum.jsAdd, JSNum.jsPow]

theorem neighborhoodCount_all_false {mask : ℤ → ℤ → Bool}
    (hm : ∀ x y, mask x y = false) (x y : ℤ) (r : ℕ) :
    neighborhoodCount mask x y r = 0 := by
  have aux : ∀ (L : List (ℤ × ℤ)) (c : ℕ),
      L.foldl (fun c d => c + if mask (x + d.2) (y + d.1) then 1 else 0) c = c := by
    intro L
    induction L with
    | nil => intro c; rfl
    | cons d ds ih => intro c; simp [List.foldl_cons, hm, ih]
  exact aux _ 0

theorem erode_all_false {mask : ℤ → ℤ → Bool} (hm : ∀ x y, mask x y = false)
    (w h r : ℕ) (x y : ℤ) :
    SaliencyDetector.erode mask w h r 5 x y = false := by
  simp [SaliencyDetector.erode, neighborhoodCount_all_false hm]

theorem dilate_all_false {mask : ℤ → ℤ → Bool} (hm : ∀ x y, mask x y = false)
    (w h r : ℕ) (x y : ℤ) :
    SaliencyDetector.dilate mask w h r x y = false := by
  simp [SaliencyDetector.dilate, hm]

theorem binarize_fuse_zero_weights (powFn : ℚ → ℚ → ℚ)
    (mm lm gm fm : ℤ → ℤ → ℚ) (x y : ℤ) :
    SaliencyDetector.binarize
      (SaliencyDetector.fuseSaliencyMaps powFn 0 0 0 0 mm lm gm fm) x y = false := by
  simp only [SaliencyDetector.binarize, SaliencyDetector.fuseSaliencyMaps,
    fusePixel_zero_weights]
  rfl

theorem morphologicalClean_fuse_zero_weights (powFn : ℚ → ℚ → ℚ)
    (mm lm gm fm : ℤ → ℤ → ℚ) (w h : ℕ) (x y : ℤ) :
    SaliencyDetector.morphologicalClean
      (SaliencyDetector.fuseSaliencyMaps powFn 0 0 0 0 mm lm gm fm) w h x y = false := by
  have h1 := binarize_fuse_zero_weights powFn mm lm gm fm
  have h2 := erode_all_false h1 w h 2
  have h3 := dilate_all_false h2 w h 3
  exact dilate_all_false h3 w h 2 x y

theorem findSalientRegions_all_false {mask : ℤ → ℤ → Bool}
    (hm : ∀ x y, mask x y = false) (mm lm gm fm : ℤ → ℤ → ℚ)
    (w h minBlobArea : ℕ) :
    SaliencyDetector.findSalientRegions mask mm lm gm fm w h minBlobArea = [] := by
  have aux : ∀ (L : List (ℤ × ℤ))
      (st : Finset (ℤ × ℤ) × List SaliencyDetector.SalientRegion),
      L.foldl (fun st p =>
        if mask p.1 p.2 = true ∧ p ∉ st.1 then
          let r := SaliencyDetector.floodFillWithScores mask mm lm gm fm w h [p] st.1
            { minX := p.1, minY := p.2, maxX := p.1, maxY := p.2
              sumX := 0, sumY := 0, area := 0
              motionSum := 0, luminanceSum := 0, gradientSum := 0, flickerSum := 0 }
          if minBlobArea ≤ r.2.area then (r.1, st.2 ++ [SaliencyDetector.regionOfAcc r.2])
          else (r.1, st.2)
        else st) st = st := by
    intro L
    induction L with
    | nil => intro st; rfl
    | cons p ps ih =>
      intro st
      rw [List.foldl_cons, if_neg (by simp [hm])]
      exact ih st
  rw [SaliencyDetector.findSalientRegions, aux]

/-- Claim C8: the fusion normalizes the four cue weights by their sum,
combines the maps by that weighted sum, and applies the 0.8-power boost;
with motion weight 1 and the rest 0 the fused value at every pixel is the
motion map value raised to the 0.8 power. -/
theorem claim_C8 :
    (∀ (powFn : ℚ → ℚ → ℚ) (wm wl wg wf m l g f : ℚ),
      wm + wl + wg + wf ≠ 0 →
      SaliencyDetector.fusePixel powFn wm wl wg wf m l g f =
        JSNum.jsPow powFn
          (JSNum.fin (m * (wm / (wm + wl + wg + wf)) + l * (wl / (wm + wl + wg + wf)) +
            g * (wg / (wm + wl + wg + wf)) + f * (wf / (wm + wl + wg + wf)))) (4/5)) ∧
    (∀ (powFn : ℚ → ℚ → ℚ) (motion luminance gradient flicker : ℤ → ℤ → ℚ) (x y : ℤ),
      0 ≤ motion x y →
      SaliencyDetector.fuseSaliencyMaps powFn 1 0 0 0 motion luminance gradient flicker x y =
        JSNum.fin (powFn (motion x y) (4/5))) := by
  constructor
  · intro powFn wm wl wg wf m l g f h
    simp [SaliencyDetector.fusePixel, JSNum.jsDiv, JSNum.jsMul, JSNum.jsAdd, h]
  · intro powFn motion luminance gradient flicker x y h
    simp only [SaliencyDetector.fuseSaliencyMaps, SaliencyDetector.fusePixel]
    norm_num [JSNum.jsDiv, JSNum.jsMul, JSNum.jsAdd]
    simp [JSNum.jsPow, not_lt.mpr h]

/-- Claim C8 witness: the motion-only fusion boundary evaluated at a
constant motion map of value one half. -/
theorem claim_C8_witness :
    SaliencyDetector.fuseSaliencyMaps powFst 1 0 0 0 (fun _ _ => (1/2 : ℚ))
      zeroMap zeroMap zeroMap 0 0 = JSNum.fin (powFst (1/2) (4/5)) :=
  claim_C8.2 powFst (fun _ _ => (1/2 : ℚ)) zeroMap zeroMap zeroMap 0 0 (by norm_num)

/-- Claim C9, counterexample: with all four fusion weights 0 the weight
normalization divides zero by zero, so the fused map holds NaN rather than
a value explicitly guarded and clamped to 0. -/
theorem claim_C9_counterexample :
    SaliencyDetector.fusePixel powFst 0 0 0 0 0 0 0 0 = JSNum.nan ∧
    JSNum.nan ≠ JSNum.fin 0 := by
  refine ⟨fusePixel_zero_weights powFst 0 0 0 0, by decide⟩

/-- Claim C9 (amended): the NaN produced by the unguarded all-zero-weight
fusion is not clamped to 0 inside the fusion, but it still never reaches an
emitted detection: the binarization comparison treats NaN as inactive, so
the cleaned mask is all-zero and the region finder returns no region; the
IoU division is explicitly guarded by union positivity; and the scene-stats
sampling loop always sees at least one sample on a nonempty frame. -/
theorem claim_C9 :
    (∀ (powFn : ℚ → ℚ → ℚ) (mm lm gm fm : ℤ → ℤ → ℚ) (w h : ℕ) (x y : ℤ),
      SaliencyDetector.morphologicalClean
        (SaliencyDetector.fuseSaliencyMaps powFn 0 0 0 0 mm lm gm fm) w h x y = false) ∧
    (∀ (powFn : ℚ → ℚ → ℚ) (mm lm gm fm : ℤ → ℤ → ℚ) (w h minBlobArea : ℕ),
      SaliencyDetector.findSalientRegions
        (SaliencyDetector.morphologicalClean
          (SaliencyDetector.fuseSaliencyMaps powFn 0 0 0 0 mm lm gm fm) w h)
        mm lm gm fm w h minBlobArea = []) ∧
    (∀ b1 b2 : BoundingBox,
      b1.width * b1.height + b2.width * b2.height -
        jmax 0 (jmin (b1.x + b1.width) (b2.x + b2.width) - jmax b1.x b2.x) *
        jmax 0 (jmin (b1.y + b1.height) (b2.y + b2.height) - jmax b1.y b2.y) ≤ 0 →
      calculateIoU b1 b2 = 0) ∧
    (∀ len : ℕ, 0 < len → 0 < SaliencyDetector.sceneSampleCount len) := by
  refine ⟨?_, ?_, ?_, ?_⟩
  · exact morphologicalClean_fuse_zero_weights
  · intro powFn mm lm gm fm w h minBlobArea
    exact findSalientRegions_all_false
      (morphologicalClean_fuse_zero_weights powFn mm lm gm fm w h) mm lm gm fm w h minBlobArea
  · intro b1 b2 h
    simp only [calculateIoU]
    rw [if_neg (not_lt.mpr h)]
  · intro len hlen
    have hmem : 0 ∈ (List.range len).filter (fun i => decide (i % 8 = 0)) :=
      List.mem_filter.mpr ⟨List.mem_range.mpr hlen, by decide⟩
    exact List.length_pos.mpr (List.ne_nil_of_mem hmem)

/-- Claim C9 witness: the amended guarantees evaluated at concrete inputs:
the zero-weight pipeline on a 1x1 frame, the zero-area IoU pair, and a
one-pixel sample set. -/
theorem claim_C9_witness :
    SaliencyDetector.morphologicalClean
      (SaliencyDetector.fuseSaliencyMaps powFst 0 0 0 0 zeroMap zeroMap zeroMap zeroMap)
      1 1 0 0 = false ∧
    SaliencyDetector.findSalientRegions
      (SaliencyDetector.morphologicalClean
        (SaliencyDetector.fuseSaliencyMaps powFst 0 0 0 0 zeroMap zeroMap zeroMap zeroMap)
        1 1)
      zeroMap zeroMap zeroMap zeroMap 1 1 150 = [] ∧
    calculateIoU zeroBox zeroBox = 0 ∧
    0 < SaliencyDetector.sceneSampleCount 1 :=
  ⟨claim_C9.1 powFst zeroMap zeroMap zeroMap zeroMap 1 1 0 0,
   claim_C9.2.1 powFst zeroMap zeroMap zeroMap zeroMap 1 1 150,
   claim_C9.2.2.1 zeroBox zeroBox (by norm_num [zeroBox, jmax, jmin]),
   claim_C9.2.2.2 1 (by norm_num)⟩

theorem candidatePairs_singleton (sqrtFn : ℚ → ℚ) (det : Detection) (track : Track)
    (thr : ℚ)
    (h : isCandidate thr (scoreEntryOf sqrtFn det track 0 0) track) :
    candidatePairs sqrtFn [det] [track] thr = [scoreEntryOf sqrtFn det track 0 0] := by
  simp only [candidatePairs, List.length_cons, List.length_nil, List.range_succ,
    List.range_zero, List.nil_append, List.flatMap_cons, List.flatMap_nil,
    List.append_nil, List.filterMap_cons, List.filterMap_nil, List.getD_cons_zero]
  rw [if_pos h]

theorem updateA_eq (sqrtFn : ℚ → ℚ) :
    Tracker.update sqrtFn freshTracker [detA] =
      ({ tracks := [trackA], nextTrackId := 2, config := DEFAULT_TRACKER_CONFIG },
       [trackA]) := rfl

theorem iou_detB_trackA :
    calculateIoU detB.bbox (predictNextPosition trackA) = 8/17 := by
  norm_num [calculateIoU, predictNextPosition, jmax, jmin, detB, trackA]

theorem dist_detB_trackA (sqrtFn : ℚ → ℚ) :
    calculateDistance sqrtFn (getCenter detB.bbox)
      (getCenter (predictNextPosition trackA)) = sqrtFn 8 := by
  simp only [calculateDistance, getCenter, predictNextPosition, detB, trackA]
  congr 1
  norm_num

theorem scoreEntry_detB_trackA (sqrtFn : ℚ → ℚ) :
    scoreEntryOf sqrtFn detB trackA 0 0 =
      { di := 0, ti := 0
        score := 8/17 + jmax 0 (1 - sqrtFn 8 / 150) * (1/2)
        iou := 8/17, distance := sqrtFn 8 } := by
  simp only [scoreEntryOf, iou_detB_trackA, dist_detB_trackA]
  have hmd : jmax trackA.bbox.width (jmax trackA.bbox.height 150) = 150 := by
    norm_num [jmax, trackA]
  rw [hmd, if_pos (by norm_num : (1:ℚ)/20 < 8/17)]

theorem cand_detB_trackA (sqrtFn : ℚ → ℚ) :
    isCandidate (1/10) (scoreEntryOf sqrtFn detB trackA 0 0) trackA := by
  rw [scoreEntry_detB_trackA]
  refine Or.inl ?_
  show (1:ℚ)/10 ≤ 8/17 + jmax 0 (1 - sqrtFn 8 / 150) * (1/2)
  have h0 : 0 ≤ jmax 0 (1 - sqrtFn 8 / 150) := by
    rw [jmax_eq]
    exact le_max_left 0 _
  nlinarith

theorem match_detB_trackA (sqrtFn : ℚ → ℚ) :
    matchDetectionsToTracks sqrtFn [detB] [trackA] (1/10) =
      { matched := [(0, 0)], unmatchedDetections := [], unmatchedTracks := [] } := by
  simp only [matchDetectionsToTracks,
    candidatePairs_singleton sqrtFn detB trackA (1/10) (cand_detB_trackA sqrtFn)]
  rfl

theorem matchedUpdate_detB_trackA : matchedUpdate detB trackA = trackAB := by
  simp only [matchedUpdate, getCenter, pushHistory, detB, trackA, trackAB]
  norm_num

theorem updateB_eq (sqrtFn : ℚ → ℚ) :
    Tracker.update sqrtFn
      { tracks := [trackA], nextTrackId := 2, config := DEFAULT_TRACKER_CONFIG }
      [detB] =
      ({ tracks := [trackAB], nextTrackId := 2, config := DEFAULT_TRACKER_CONFIG },
       [trackAB]) := by
  have hm : matchDetectionsToTracks sqrtFn [detB]
      (Tracker.tracks { tracks := [trackA], nextTrackId := 2, config := DEFAULT_TRACKER_CONFIG })
      (TrackerConfig.iouThreshold
        (Tracker.config { tracks := [trackA], nextTrackId := 2, config := DEFAULT_TRACKER_CONFIG })) =
      { matched := [(0, 0)], unmatchedDetections := [], unmatchedTracks := [] } :=
    match_detB_trackA sqrtFn
  simp only [Tracker.update, processedOld, hm]
  simp only [applyMatched, applyAging, List.foldl_cons, List.foldl_nil, modifyIdx,
    List.getD_cons_zero, newTracksList, List.append_nil, matchedUpdate_detB_trackA]
  rfl

/-- Claim C6, counterexample: in the two-frame basic-tracking scenario the
surviving track's velocity is exactly (1.4, 1.4) — the 0.7-smoothed center
delta — which is not the claimed approximately (2, 2). -/
theorem claim_C6_counterexample :
    ((Tracker.update sqrtZero (Tracker.update sqrtZero freshTracker [detA]).1
        [detB]).2.map Track.velocity) = [((7:ℚ)/5, (7:ℚ)/5)] ∧
    (((7:ℚ)/5, (7:ℚ)/5) : ℚ × ℚ) ≠ ((2:ℚ), (2:ℚ)) := by
  constructor
  · rw [updateA_eq, updateB_eq]
    rfl
  · simp only [ne_eq, Prod.mk.injEq, not_and]
    intro h
    norm_num at h

/-- Claim C6 (amended): the two-frame scenario yields exactly one track
with id 1, age 2, timeSinceUpdate 0, bbox (2,2,10,10) and velocity exactly
(1.4, 1.4): the center delta is (2, 2) but the exponential smoothing with
alpha = 0.7 on the new value starts from velocity (0, 0), giving
0.3 * 0 + 0.7 * 2 = 1.4 per axis. -/
theorem claim_C6 (sqrtFn : ℚ → ℚ) :
    Tracker.update sqrtFn (Tracker.update sqrtFn freshTracker [detA]).1 [detB] =
      ({ tracks := [trackAB], nextTrackId := 2, config := DEFAULT_TRACKER_CONFIG },
       [trackAB]) := by
  rw [updateA_eq]
  exact updateB_eq sqrtFn

end Ngrev
